import Mathlib

/-!
Shallow embedding of the goal/task orchestration core:
the `GoalStore` persistence layer (goals, tasks, audit events over SQLite),
the `TaskExecutor` batch loop, the `DaemonService` queue drain and the
`GoalDecomposer` task materialization, together with proofs of the
behavioural properties claimed for them.

The SQLite tables become Lean lists, `datetime('now')` becomes the abstract
clock value `Store.now` (none of the verified properties depend on the
actual time), SQL `ORDER BY` becomes `List.insertionSort` with the same
sort key, and JavaScript values arriving from JSON become the `Json`
inductive below.
-/

namespace OperatorCore

/-- A minimal JSON value, standing in for the dynamic objects that the
source passes around (`input`, `metadata`, parsed LLM responses). -/
inductive Json where
  | null : Json
  | bool (b : Bool) : Json
  | num (n : Int) : Json
  | str (s : String) : Json
  | arr (xs : List Json) : Json
  | obj (fields : List (String × Json)) : Json

/-- Goal.status values, from the goals table CHECK constraint. -/
inductive GoalStatus where
  | active | paused | completed | failed | cancelled
deriving DecidableEq

/-- The string used for a goal status in SQL and in audit event types. -/
def GoalStatus.name : GoalStatus → String
  | .active => "active"
  | .paused => "paused"
  | .completed => "completed"
  | .failed => "failed"
  | .cancelled => "cancelled"

/-- Task.status values, from the tasks table CHECK constraint. -/
inductive TaskStatus where
  | pending | queued | running | completed | failed | blocked | cancelled
deriving DecidableEq

/-- A row of the goals table (interface `Goal` in the source). -/
structure Goal where
  id : Nat
  title : String
  description : Option String := none
  status : GoalStatus := .active
  priority : Nat := 5
  created_at : Nat := 0
  updated_at : Nat := 0
  deadline : Option String := none
  parent_goal_id : Option Nat := none
  progress : Rat := 0
  metadata : Json := .obj []

/-- A row of the tasks table (interface `Task` in the source). -/
structure Task where
  id : Nat
  goal_id : Nat
  title : String
  description : Option String := none
  status : TaskStatus := .pending
  skill : Option String := none
  input : Json := .obj []
  output : Option String := none
  depends_on : List Nat := []
  scheduled_at : Option Nat := none
  started_at : Option Nat := none
  completed_at : Option Nat := none
  retry_count : Nat := 0
  max_retries : Nat := 3
  error : Option String := none
  requires_approval : Bool := false
  approved_at : Option Nat := none
  created_at : Nat := 0

/-- A row of the audit_events table. -/
structure AuditEvent where
  event_type : String
  entity_type : String
  entity_id : Nat
  action : String
  details : String
  created_at : Nat := 0
deriving DecidableEq

/-- The persistent database state seen by `GoalStore`.  Row ids are the
AUTOINCREMENT counters `next_goal_id` / `next_task_id`; rows are kept in
insertion order.  `now` is the value `datetime('now')` would return. -/
structure Store where
  goals : List Goal := []
  tasks : List Task := []
  audit_events : List AuditEvent := []
  next_goal_id : Nat := 1
  next_task_id : Nat := 1
  now : Nat := 0

/-- `GoalStore.logAudit`: INSERT INTO audit_events. -/
def logAudit (s : Store) (eventType entityType : String) (entityId : Nat)
    (details : String) : Store :=
  { s with audit_events := s.audit_events ++
      [{ event_type := eventType, entity_type := entityType,
         entity_id := entityId, action := eventType, details := details,
         created_at := s.now }] }

/-- Options object of `GoalStore.addGoal`. -/
structure AddGoalOptions where
  description : Option String := none
  priority : Option Nat := none
  deadline : Option String := none
  parentGoalId : Option Nat := none

/-- `GoalStore.addGoal`: INSERT a goal (status and progress take the
schema defaults), audit `goal.created`, return the new row. -/
def addGoal (s : Store) (title : String) (options : AddGoalOptions) :
    Goal × Store :=
  let g : Goal :=
    { id := s.next_goal_id, title := title,
      description := options.description,
      status := .active, priority := options.priority.getD 5,
      created_at := s.now, updated_at := s.now,
      deadline := options.deadline,
      parent_goal_id := options.parentGoalId,
      progress := 0, metadata := .obj [] }
  let s1 : Store :=
    { s with goals := s.goals ++ [g], next_goal_id := s.next_goal_id + 1 }
  (g, logAudit s1 "goal.created" "goal" g.id title)

/-- `GoalStore.getGoal`: SELECT * FROM goals WHERE id = ?. -/
def getGoal (s : Store) (id : Nat) : Option Goal :=
  s.goals.find? (fun g => g.id == id)

/-- `GoalStore.getTask`: SELECT * FROM tasks WHERE id = ?. -/
def getTask (s : Store) (id : Nat) : Option Task :=
  s.tasks.find? (fun t => t.id == id)

/-- UPDATE tasks SET ... WHERE id = ?, as a row transformer. -/
def updTasks (l : List Task) (id : Nat) (f : Task → Task) : List Task :=
  l.map (fun t => if t.id == id then f t else t)

/-- UPDATE goals SET ... WHERE id = ?, as a row transformer. -/
def updGoals (l : List Goal) (id : Nat) (f : Goal → Goal) : List Goal :=
  l.map (fun g => if g.id == id then f g else g)

/-- `GoalStore.updateGoalStatus`: direct status write plus the
`goal.<status>` audit row (no transition validation). -/
def updateGoalStatus (s : Store) (id : Nat) (status : GoalStatus) : Store :=
  let goals := updGoals s.goals id
    (fun g => { g with status := status, updated_at := s.now })
  let s1 : Store := { s with goals := goals }
  logAudit s1 ("goal." ++ status.name) "goal" id
    ("Goal #" ++ toString id ++ " → " ++ status.name)

/-- Ordering used by `listTasks` (ORDER BY id ASC). -/
def taskIdLE (a b : Task) : Prop := a.id ≤ b.id

instance : DecidableRel taskIdLE := fun a b =>
  inferInstanceAs (Decidable (a.id ≤ b.id))

/-- `GoalStore.listTasks`: SELECT * FROM tasks WHERE goal_id = ? ORDER BY id. -/
def listTasks (s : Store) (goalId : Nat) : List Task :=
  List.insertionSort taskIdLE (s.tasks.filter (fun t => t.goal_id == goalId))

/-- `GoalStore.updateGoalProgress`: recompute progress from the owned
tasks; when the result reaches 1.0 the goal is auto-completed through
`updateGoalStatus` (which writes the only audit row of this operation). -/
def updateGoalProgress (s : Store) (id : Nat) : Store :=
  if (listTasks s id).length = 0 then s
  else
    let progress : Rat :=
      ((((listTasks s id).filter (fun t => t.status == .completed)).length : Rat) /
        ((listTasks s id).length : Rat))
    let s1 : Store := { s with goals := updGoals s.goals id (fun g => { g with progress := progress, updated_at := s.now }) }
    if progress ≥ 1 then updateGoalStatus s1 id .completed else s1

/-- `GoalStore.removeGoal`: DELETE FROM goals WHERE id = ?; the tasks
table declares ON DELETE CASCADE, so the owned tasks go with it.  Note:
no audit row is written.  Returns `changes > 0`. -/
def removeGoal (s : Store) (id : Nat) : Bool × Store :=
  let changed := s.goals.any (fun g => g.id == id)
  (changed,
   { s with goals := s.goals.filter (fun g => !(g.id == id)),
            tasks := s.tasks.filter (fun t => !(t.goal_id == id)) })

/-- Options object of `GoalStore.addTask`. -/
structure AddTaskOptions where
  description : Option String := none
  skill : Option String := none
  input : Option Json := none
  dependsOn : Option (List Nat) := none
  requiresApproval : Option Bool := none
  scheduledAt : Option Nat := none

/-- `GoalStore.addTask`: INSERT a task; status, retry_count and
max_retries take the schema defaults (pending, 0, 3); audit `task.created`. -/
def addTask (s : Store) (goalId : Nat) (title : String)
    (options : AddTaskOptions) : Task × Store :=
  let t : Task :=
    { id := s.next_task_id, goal_id := goalId, title := title,
      description := options.description,
      status := .pending, skill := options.skill,
      input := options.input.getD (.obj []),
      output := none,
      depends_on := options.dependsOn.getD [],
      scheduled_at := options.scheduledAt,
      started_at := none, completed_at := none,
      retry_count := 0, max_retries := 3, error := none,
      requires_approval := options.requiresApproval.getD false,
      approved_at := none, created_at := s.now }
  let s1 : Store :=
    { s with tasks := s.tasks ++ [t], next_task_id := s.next_task_id + 1 }
  (t, logAudit s1 "task.created" "task" t.id title)

/-- Goal priority used as the primary sort key of `getNextTask`
(the SQL join guarantees the goal exists for every candidate row). -/
def goalPriority (s : Store) (t : Task) : Nat :=
  match getGoal s t.goal_id with
  | some g => g.priority
  | none => 0

/-- ORDER BY g.priority ASC, t.id ASC. -/
def taskLE (s : Store) (a b : Task) : Prop :=
  goalPriority s a < goalPriority s b ∨
    (goalPriority s a = goalPriority s b ∧ a.id ≤ b.id)

instance instDecidableRelTaskLE (s : Store) : DecidableRel (taskLE s) :=
  fun a b =>
    inferInstanceAs (Decidable (goalPriority s a < goalPriority s b ∨
      (goalPriority s a = goalPriority s b ∧ a.id ≤ b.id)))

/-- The WHERE clause of the candidate query of `getNextTask`:
status IN (pending, queued) joined against an active goal. -/
def candidateB (s : Store) (t : Task) : Bool :=
  (t.status == .pending || t.status == .queued) &&
    (match getGoal s t.goal_id with
     | some g => g.status == .active
     | none => false)

/-- The per-candidate dependency walk of `getNextTask`: every id in
depends_on must resolve to a task whose status is completed. -/
def depsMetB (s : Store) (t : Task) : Bool :=
  t.depends_on.all (fun d =>
    match getTask s d with
    | some dt => dt.status == .completed
    | none => false)

/-- The eligibility filter applied while walking the ordered candidates:
dependencies met and the approval gate satisfied. -/
def eligibleB (s : Store) (t : Task) : Bool :=
  depsMetB s t && (!t.requires_approval || t.approved_at.isSome)

/-- `GoalStore.getNextTask`: the ordered candidate list, then the first
eligible row, or null. -/
def getNextTask (s : Store) : Option Task :=
  (List.insertionSort (taskLE s) (s.tasks.filter (candidateB s))).find?
    (eligibleB s)

/-- `GoalStore.startTask`: status→running, started_at, audit `task.started`. -/
def startTask (s : Store) (id : Nat) : Store :=
  let tasks := updTasks s.tasks id
    (fun t => { t with status := .running, started_at := some s.now })
  let s1 : Store := { s with tasks := tasks }
  logAudit s1 "task.started" "task" id ("Task #" ++ toString id ++ " started")

/-- The SET clause of `completeTask`: status→completed, output,
completed_at. -/
def completeRow (now : Nat) (output : String) (t : Task) : Task :=
  { t with status := .completed, output := some output, completed_at := some now }

/-- `GoalStore.completeTask`: apply `completeRow` to the task row, audit
`task.completed`, then recompute the owning goal progress. -/
def completeTask (s : Store) (id : Nat) (output : String) : Store :=
  let s2 := logAudit { s with tasks := updTasks s.tasks id (completeRow s.now output) }
    "task.completed" "task" id ("Task #" ++ toString id ++ " completed")
  match getTask s2 id with
  | some t => updateGoalProgress s2 t.goal_id
  | none => s2

/-- `GoalStore.failTask`: below max_retries the task is reset to pending
with retry_count incremented (audit `task.retry`); otherwise it is marked
terminally failed with completed_at set (audit `task.failed`). -/
def failTask (s : Store) (id : Nat) (error : String) : Store :=
  match getTask s id with
  | none => s
  | some task =>
    if task.retry_count < task.max_retries then
      let tasks := updTasks s.tasks id
        (fun t => { t with status := .pending,
                           retry_count := t.retry_count + 1,
                           error := some error })
      let s1 : Store := { s with tasks := tasks }
      logAudit s1 "task.retry" "task" id
        ("Task #" ++ toString id ++ " retry " ++
          toString (task.retry_count + 1) ++ "/" ++
          toString task.max_retries ++ ": " ++ error)
    else
      let tasks := updTasks s.tasks id
        (fun t => { t with status := .failed, error := some error,
                           completed_at := some s.now })
      let s1 : Store := { s with tasks := tasks }
      logAudit s1 "task.failed" "task" id
        ("Task #" ++ toString id ++ " failed: " ++ error)

/-- `GoalStore.approveTask`: UPDATE ... WHERE id = ? AND
requires_approval = 1; audit `task.approved` when a row changed; returns
`changes > 0`.  No condition on the current status. -/
def approveTask (s : Store) (id : Nat) : Bool × Store :=
  let s1 : Store :=
    { s with tasks := s.tasks.map (fun t =>
        if t.id == id && t.requires_approval then
          { t with approved_at := some s.now, status := .queued }
        else t) }
  let changes := (s.tasks.filter (fun t => t.id == id && t.requires_approval)).length
  if changes > 0 then (true, logAudit s1 "task.approved" "task" id
      ("Task #" ++ toString id ++ " approved"))
  else (false, s1)

/-!
### TaskExecutor

`execute` marks the task running, obtains a success flag and output text
(in the source: one LLM round trip, plus sequential shell commands when
the task names a skill — both external collaborators, abstracted here as
an outcome oracle), then persists the outcome through `completeTask` or
`failTask`.  The memory and metrics writes go to external collaborators
and do not touch the store.
-/

/-- Outcome of the reasoning/shell phase of `TaskExecutor.execute`. -/
structure ExecOutcome where
  success : Bool
  output : String

/-- The reasoning-service/shell collaborator: what executing a given task
would produce.  A thrown transport error is a `success := false` outcome,
exactly as the catch branch of `execute` folds it. -/
def Oracle : Type := Task → ExecOutcome

/-- `TaskExecutor.execute`. -/
def execute (oracle : Oracle) (s : Store) (t : Task) : ExecOutcome × Store :=
  let s1 := startTask s t.id
  let r := oracle t
  if r.success then (r, completeTask s1 t.id r.output)
  else (r, failTask s1 t.id r.output)

/-- One row of the result list of `processQueue` (output truncated to 500). -/
structure TaskResult where
  taskId : Nat
  title : String
  success : Bool
  output : String

/-- Aggregate result of `TaskExecutor.processQueue`. -/
structure QueueResult where
  processed : Nat
  completed : Nat
  failed : Nat
  results : List TaskResult

/-- `TaskExecutor.processQueue(maxTasks)`: up to `maxTasks` iterations,
each pulling one eligible task and executing it; an individual failure
does not stop the loop.  The `while processed < maxTasks` loop becomes
recursion on the remaining iteration count. -/
def processQueue (oracle : Oracle) : Nat → Store → QueueResult × Store
  | 0, s => (⟨0, 0, 0, []⟩, s)
  | n + 1, s =>
    match getNextTask s with
    | none => (⟨0, 0, 0, []⟩, s)
    | some t =>
      let es := execute oracle s t
      let rest := processQueue oracle n es.snd
      (⟨rest.fst.processed + 1,
        rest.fst.completed + (if es.fst.success then 1 else 0),
        rest.fst.failed + (if es.fst.success then 0 else 1),
        ⟨t.id, t.title, es.fst.success, es.fst.output.take 500⟩ :: rest.fst.results⟩,
       rest.snd)

/-!
### DaemonService queue processing

`processGoalQueue` pulls one task; on success it recurses to keep
draining, on failure it records the failure and stops.  The daemon
executes tasks through `DaemonService.executeTask`, which can throw
(transport errors); the collaborator is abstracted as an
`Except`-valued oracle.  The source recursion has no structural bound
(it ends when the queue is empty or a task fails), so the embedding
carries an explicit fuel for the recursion depth.
-/

/-- The daemon counters relevant to queue processing. -/
structure DaemonStats where
  tasksProcessed : Nat := 0
  tasksCompleted : Nat := 0
  tasksFailed : Nat := 0
  triggersFireCount : Nat := 0
  heartbeats : Nat := 0

/-- `DaemonService.processGoalQueue`. -/
def processGoalQueue (exec : Task → Except String String) :
    Nat → Store → DaemonStats → Store × DaemonStats
  | 0, s, st => (s, st)
  | n + 1, s, st =>
    match getNextTask s with
    | none => (s, st)
    | some t =>
      let st1 := { st with tasksProcessed := st.tasksProcessed + 1 }
      let s1 := startTask s t.id
      match exec t with
      | .ok result =>
        let s2 := completeTask s1 t.id result
        let st2 := { st1 with tasksCompleted := st1.tasksCompleted + 1 }
        processGoalQueue exec n s2 st2
      | .error e =>
        let s2 := failTask s1 t.id e
        (s2, { st1 with tasksFailed := st1.tasksFailed + 1 })

/-!
### GoalDecomposer

`decompose` is one LLM round trip followed by `parseResponse`; the round
trip is external, so the embedding starts from the parse outcome of the
response text: either a parse error message (JSON.parse threw) or a
parsed `Json` value.  `decomposeAndCreate` then materializes the parsed
task specifications into the store in array order.
-/

/-- One task specification of a decomposition (interface `DecomposedTask`). -/
structure DecomposedTask where
  title : String
  description : String
  skill : Option String := none
  dependsOnIndex : List Nat := []
  requiresApproval : Bool := false
  input : Json := .obj []

/-- Parsed decomposition (interface `DecompositionResult`). -/
structure DecompositionResult where
  tasks : List DecomposedTask
  reasoning : String
  estimatedMinutes : Int

/-- Property lookup on a parsed JSON object (undefined otherwise). -/
def Json.getField : Json → String → Option Json
  | .obj fields, k => (fields.find? (fun p => p.fst == k)).map (fun p => p.snd)
  | _, _ => none

/-- The `?? default` fallback for an expected string field. -/
def jsStrOr (v : Option Json) (d : String) : String :=
  match v with
  | some (.str s) => s
  | _ => d

/-- The `?? false` fallback for an expected boolean field. -/
def jsBoolOr (v : Option Json) (d : Bool) : Bool :=
  match v with
  | some (.bool b) => b
  | _ => d

/-- The `?? []` fallback for the expected number array `dependsOnIndex`. -/
def jsNatListOr (v : Option Json) (d : List Nat) : List Nat :=
  match v with
  | some (.arr xs) => xs.filterMap (fun j =>
      match j with
      | .num n => if 0 ≤ n then some n.toNat else none
      | _ => none)
  | _ => d

/-- Field normalization applied to each element of the parsed tasks
array (the `parsed.tasks.map` of `parseResponse`). -/
def decodeTask (j : Json) : DecomposedTask :=
  { title := jsStrOr (j.getField "title") "Unnamed task",
    description := jsStrOr (j.getField "description") "",
    skill := (match j.getField "skill" with
              | some (.str s) => some s
              | _ => none),
    dependsOnIndex := jsNatListOr (j.getField "dependsOnIndex") [],
    requiresApproval := jsBoolOr (j.getField "requiresApproval") false,
    input := (j.getField "input").getD (.obj []) }

/-- The tasks field when it is an array, else nothing (the
`Array.isArray(parsed.tasks)` check). -/
def tasksArray (j : Json) : Option (List Json) :=
  match j.getField "tasks" with
  | some (.arr xs) => some xs
  | _ => none

/-- The fallback single manual task produced on any parse failure. -/
def fallbackResult (content : String) (errMsg : String) : DecompositionResult :=
  { tasks := [{ title := "Execute goal manually",
                description := "LLM decomposition failed. Original response: " ++
                  content.take 200,
                requiresApproval := true }],
    reasoning := "Decomposition failed: " ++ errMsg,
    estimatedMinutes := 60 }

/-- `GoalDecomposer.parseResponse`: `parsed` is the outcome of
`JSON.parse` on the fence-stripped response text (`Except.error` when it
threw); a missing or non-array tasks field throws into the same catch.
`content` is the raw response text used by the fallback. -/
def parseResponse (parsed : Except String Json) (content : String) :
    DecompositionResult :=
  match parsed with
  | .error e => fallbackResult content e
  | .ok j =>
    match tasksArray j with
    | none => fallbackResult content "Response missing tasks array"
    | some taskJsons =>
      { tasks := taskJsons.map decodeTask,
        reasoning := jsStrOr (j.getField "reasoning") "No reasoning provided",
        estimatedMinutes :=
          (match j.getField "estimatedMinutes" with
           | some (.num n) => n
           | _ => 30) }

/-- The insertion loop of `decomposeAndCreate`: walk the decomposed
tasks in array order, resolving each `dependsOnIndex` entry through the
position→id map accumulated so far (so only earlier positions resolve;
self and forward references find nothing and are dropped). -/
def createLoop (goalId : Nat) :
    List DecomposedTask → Nat → List (Nat × Nat) → Store → List Task × Store
  | [], _, _, s => ([], s)
  | td :: rest, i, indexToId, s =>
    let dependsOn := td.dependsOnIndex.filterMap
      (fun depIdx => indexToId.lookup depIdx)
    let added := addTask s goalId td.title
      { description := some td.description, skill := td.skill,
        input := some td.input, dependsOn := some dependsOn,
        requiresApproval := some td.requiresApproval, scheduledAt := none }
    let restPair := createLoop goalId rest (i + 1)
      ((i, added.fst.id) :: indexToId) added.snd
    (added.fst :: restPair.fst, restPair.snd)

/-- `GoalDecomposer.decomposeAndCreate`, from the parsed decomposition
(the `decompose` LLM round trip and the closing memory write are
external).  Returns the created tasks in creation order. -/
def decomposeAndCreate (s : Store) (goalId : Nat)
    (result : DecompositionResult) : List Task × Store :=
  createLoop goalId result.tasks 0 [] s

/-- `failTask` iterated: the store after `n` consecutive failures of the
same task (each failure reported with the same error text). -/
def iterFail (s : Store) (id : Nat) (err : String) : Nat → Store
  | 0 => s
  | n + 1 => failTask (iterFail s id err n) id err

/-!
### Concrete stores used by the scenario parts of the claims

All of them are reached from the empty store through the public
operations only.
-/

/-- The empty database. -/
def baseStore : Store := {}

/-- One goal (id 1, default priority 5, active). -/
def storeG : Store := (addGoal baseStore "G" {}).snd

/-- Goal 1 with one fresh task (id 1, pending, retry_count 0, max_retries 3). -/
def storeT1 : Store := (addTask storeG 1 "T1" {}).snd

/-- Goal 1 with two fresh tasks (ids 1 and 2, both pending). -/
def storeT12 : Store := (addTask storeT1 1 "T2" {}).snd

/-- Two active goals: id 1 with priority 1, id 2 with priority 5; the
priority-5 task (id 1) was created before the priority-1 task (id 2), so
id order and priority order disagree. -/
def storeC1 : Store :=
  let p1 := addGoal baseStore "P1" { priority := some 1 }
  let p5 := addGoal p1.snd "P5" { priority := some 5 }
  let t5 := addTask p5.snd 2 "tp5" {}
  (addTask t5.snd 1 "tp1" {}).snd

/-- The task of the priority-1 goal in `storeC1`. -/
def taskC1 : Task := { id := 2, goal_id := 1, title := "tp1" }

/-!
### Basic facts about the store operations
-/

theorem logAudit_tasks (s : Store) (a b : String) (i : Nat) (d : String) :
    (logAudit s a b i d).tasks = s.tasks := rfl

theorem logAudit_goals (s : Store) (a b : String) (i : Nat) (d : String) :
    (logAudit s a b i d).goals = s.goals := rfl

theorem logAudit_audit_events (s : Store) (a b : String) (i : Nat) (d : String) :
    (logAudit s a b i d).audit_events =
      s.audit_events ++ [⟨a, b, i, a, d, s.now⟩] := rfl

/-- `taskLE` is reflexive. -/
theorem taskLE_refl (s : Store) (a : Task) : taskLE s a a := by
  unfold taskLE; omega

/-- `taskLE` is total. -/
theorem taskLE_total (s : Store) (a b : Task) : taskLE s a b ∨ taskLE s b a := by
  unfold taskLE; omega

/-- `taskLE` is transitive. -/
theorem taskLE_trans (s : Store) (a b c : Task)
    (h1 : taskLE s a b) (h2 : taskLE s b c) : taskLE s a c := by
  unfold taskLE at *; omega

/-- The first element found in a `Pairwise r` list is `r`-below every
element of the list satisfying the predicate (with `r` reflexive). -/
theorem find?_min {α : Type} {r : α → α → Prop} (hrefl : ∀ a, r a a) :
    ∀ {l : List α}, l.Pairwise r → ∀ {p : α → Bool} {x : α},
      l.find? p = some x → ∀ u ∈ l, p u = true → r x u := by
  intro l hl
  induction hl with
  | nil => intro p x h; simp [List.find?] at h
  | @cons a l hhead _ ih =>
    intro p x hfind u hu hpu
    by_cases hpa : p a = true
    · rw [List.find?_cons_of_pos _ hpa] at hfind
      obtain rfl := Option.some.inj hfind
      rcases List.mem_cons.1 hu with rfl | hu'
      · exact hrefl u
      · exact hhead u hu'
    · rw [List.find?_cons_of_neg _ hpa] at hfind
      rcases List.mem_cons.1 hu with rfl | hu'
      · exact absurd hpu hpa
      · exact ih hfind u hu' hpu

/-- What a returned task satisfies: it is a stored row, a candidate of
the scheduling query, and eligible. -/
theorem getNextTask_some {s : Store} {t : Task} (h : getNextTask s = some t) :
    t ∈ s.tasks ∧ candidateB s t = true ∧ eligibleB s t = true := by
  unfold getNextTask at h
  have hmem := List.mem_of_find?_eq_some h
  have hp := List.find?_some h
  have hmem' : t ∈ s.tasks.filter (candidateB s) :=
    ((List.perm_insertionSort (taskLE s) _).mem_iff).1 hmem
  rw [List.mem_filter] at hmem'
  exact ⟨hmem'.1, hmem'.2, hp⟩

/-- The returned task is first in (goal priority, task id) order among
all eligible candidates. -/
theorem getNextTask_min {s : Store} {t : Task} (h : getNextTask s = some t) :
    ∀ u ∈ s.tasks, candidateB s u = true → eligibleB s u = true →
      taskLE s t u := by
  intro u hu hcand helig
  haveI : IsTotal Task (taskLE s) := ⟨taskLE_total s⟩
  haveI : IsTrans Task (taskLE s) := ⟨taskLE_trans s⟩
  have hsorted : (List.insertionSort (taskLE s)
      (s.tasks.filter (candidateB s))).Pairwise (taskLE s) :=
    List.sorted_insertionSort (taskLE s) _
  have humem : u ∈ List.insertionSort (taskLE s) (s.tasks.filter (candidateB s)) :=
    ((List.perm_insertionSort (taskLE s) _).mem_iff).2
      (List.mem_filter.2 ⟨hu, hcand⟩)
  exact find?_min (taskLE_refl s) hsorted h u humem helig

/-- When nothing is returned, no stored row is both a candidate and
eligible. -/
theorem getNextTask_none {s : Store} (h : getNextTask s = none) :
    ∀ u ∈ s.tasks, candidateB s u = true → eligibleB s u = true → False := by
  intro u hu hc he
  unfold getNextTask at h
  rw [List.find?_eq_none] at h
  exact h u (((List.perm_insertionSort (taskLE s) _).mem_iff).2
    (List.mem_filter.2 ⟨hu, hc⟩)) he

/-- C1.  `getNextTask` returns the least eligible candidate in the order
of owning-goal priority ascending then task id ascending — a candidate
being a stored pending/queued task of an active goal, and eligible
meaning every dependency id resolves to a completed task and the
approval gate is satisfied — and returns null exactly when no such task
exists; in the two-goal scenario with priorities 1 and 5, the task of
the priority-1 goal is returned first. -/
theorem claim_C1 :
    (∀ (s : Store) (t : Task), getNextTask s = some t →
        t ∈ s.tasks ∧ candidateB s t = true ∧ eligibleB s t = true ∧
        ∀ u ∈ s.tasks, candidateB s u = true → eligibleB s u = true →
          taskLE s t u)
    ∧ (∀ s : Store, getNextTask s = none →
        ∀ u ∈ s.tasks, candidateB s u = true → eligibleB s u = true → False)
    ∧ getNextTask storeC1 = some taskC1 ∧ taskC1.goal_id = 1 := by
  refine ⟨fun s t h => ?_, fun s h => getNextTask_none h, ?_, rfl⟩
  · obtain ⟨h1, h2, h3⟩ := getNextTask_some h
    exact ⟨h1, h2, h3, getNextTask_min h⟩
  · rfl

/-- Concrete instantiation of C1 at the two-goal scenario store. -/
theorem claim_C1_witness :
    taskC1 ∈ storeC1.tasks ∧ candidateB storeC1 taskC1 = true ∧
      eligibleB storeC1 taskC1 = true ∧
      ∀ u ∈ storeC1.tasks, candidateB storeC1 u = true →
        eligibleB storeC1 u = true → taskLE storeC1 taskC1 u :=
  claim_C1.1 storeC1 taskC1 claim_C1.2.2.1

/-!
### failTask: retry policy
-/

/-- A row-keyed map commutes with lookup by that key, as long as the
update preserves the key. -/
theorem find?_map_ite {α : Type} (idf : α → Nat) (l : List α) (id : Nat)
    (f : α → α) (hf : ∀ x, idf (f x) = idf x) :
    (l.map (fun x => if idf x == id then f x else x)).find?
        (fun x => idf x == id) =
      (l.find? (fun x => idf x == id)).map f := by
  induction l with
  | nil => rfl
  | cons a l ih =>
    simp only [List.map]
    cases hpa : (idf a == id) with
    | true =>
      have hpfa : (idf (f a) == id) = true := by rw [hf]; exact hpa
      rw [if_pos rfl]
      simp only [List.find?_cons, hpa, hpfa]
      rfl
    | false =>
      rw [if_neg (by simp)]
      simp only [List.find?_cons, hpa]
      exact ih

/-- Lookup after an UPDATE of the tasks table. -/
theorem find?_updTasks (l : List Task) (id : Nat) (f : Task → Task)
    (hf : ∀ t : Task, (f t).id = t.id) :
    (updTasks l id f).find? (fun t => t.id == id) =
      (l.find? (fun t => t.id == id)).map f :=
  find?_map_ite Task.id l id f hf

/-- Lookup after an UPDATE of the goals table. -/
theorem find?_updGoals (l : List Goal) (id : Nat) (f : Goal → Goal)
    (hf : ∀ g : Goal, (f g).id = g.id) :
    (updGoals l id f).find? (fun g => g.id == id) =
      (l.find? (fun g => g.id == id)).map f :=
  find?_map_ite Goal.id l id f hf

/-- Rows with a different id survive an UPDATE unchanged. -/
theorem mem_updTasks_of_ne {l : List Task} {u : Task} (hu : u ∈ l)
    {id : Nat} (f : Task → Task) (hne : u.id ≠ id) :
    u ∈ updTasks l id f := by
  have h := List.mem_map_of_mem (fun t => if t.id == id then f t else t) hu
  simpa [updTasks, hne] using h

/-- A failure below the retry budget: the stored row afterwards. -/
theorem getTask_failTask_retry {s : Store} {id : Nat} {t : Task}
    (err : String) (ht : getTask s id = some t)
    (h : t.retry_count < t.max_retries) :
    getTask (failTask s id err) id =
      some { t with status := .pending, retry_count := t.retry_count + 1,
                    error := some err } := by
  unfold failTask
  rw [ht]
  simp only [if_pos h]
  show (updTasks s.tasks id (fun u => { u with status := .pending, retry_count := u.retry_count + 1, error := some err })).find? (fun u => u.id == id) = _
  rw [find?_updTasks s.tasks id (fun u => { u with status := .pending, retry_count := u.retry_count + 1, error := some err }) (fun u => rfl)]
  rw [show s.tasks.find? (fun u => u.id == id) = some t from ht]
  rfl

/-- A failure at an exhausted retry budget: the stored row afterwards. -/
theorem getTask_failTask_final {s : Store} {id : Nat} {t : Task}
    (err : String) (ht : getTask s id = some t)
    (h : ¬ t.retry_count < t.max_retries) :
    getTask (failTask s id err) id =
      some { t with status := .failed, error := some err,
                    completed_at := some s.now } := by
  unfold failTask
  rw [ht]
  simp only [if_neg h]
  show (updTasks s.tasks id (fun u => { u with status := .failed, error := some err, completed_at := some s.now })).find? (fun u => u.id == id) = _
  rw [find?_updTasks s.tasks id (fun u => { u with status := .failed, error := some err, completed_at := some s.now }) (fun u => rfl)]
  rw [show s.tasks.find? (fun u => u.id == id) = some t from ht]
  rfl

/-- C3.  For an existing task, `failTask` with retries remaining resets
the task to pending with retry_count incremented by exactly one and the
error stored, appending a task.retry audit row; with the budget
exhausted it marks the task failed with completed_at set and the error
stored, appending a task.failed audit row; in both branches every other
field of the task, every other task row and the goals table are
untouched. -/
theorem claim_C3 (s : Store) (id : Nat) (err : String) (t : Task)
    (ht : getTask s id = some t) :
    (t.retry_count < t.max_retries →
        getTask (failTask s id err) id =
          some { t with status := .pending,
                        retry_count := t.retry_count + 1,
                        error := some err } ∧
        (failTask s id err).audit_events = s.audit_events ++
          [⟨"task.retry", "task", id, "task.retry",
            "Task #" ++ toString id ++ " retry " ++
              toString (t.retry_count + 1) ++ "/" ++
              toString t.max_retries ++ ": " ++ err, s.now⟩])
    ∧ (¬ t.retry_count < t.max_retries →
        getTask (failTask s id err) id =
          some { t with status := .failed, error := some err,
                        completed_at := some s.now } ∧
        (failTask s id err).audit_events = s.audit_events ++
          [⟨"task.failed", "task", id, "task.failed",
            "Task #" ++ toString id ++ " failed: " ++ err, s.now⟩])
    ∧ (failTask s id err).goals = s.goals
    ∧ ∀ u ∈ s.tasks, u.id ≠ id → u ∈ (failTask s id err).tasks := by
  refine ⟨fun h => ⟨getTask_failTask_retry err ht h, ?_⟩,
          fun h => ⟨getTask_failTask_final err ht h, ?_⟩, ?_, ?_⟩
  · unfold failTask; rw [ht]; simp only [if_pos h]; rfl
  · unfold failTask; rw [ht]; simp only [if_neg h]; rfl
  · unfold failTask; rw [ht]
    by_cases h : t.retry_count < t.max_retries
    · simp only [if_pos h]; rfl
    · simp only [if_neg h]; rfl
  · intro u hu hne
    unfold failTask; rw [ht]
    by_cases h : t.retry_count < t.max_retries
    · simp only [if_pos h]
      show u ∈ updTasks s.tasks id _
      exact mem_updTasks_of_ne hu _ hne
    · simp only [if_neg h]
      show u ∈ updTasks s.tasks id _
      exact mem_updTasks_of_ne hu _ hne

/-- The fresh task of `storeT1`. -/
def taskT1 : Task := { id := 1, goal_id := 1, title := "T1" }

/-- `storeT1` after three failures of its task: retry budget exhausted,
status still pending. -/
def storeMaxed : Store := iterFail storeT1 1 "boom" 3

/-- The stored task row of `storeMaxed`. -/
def taskMaxed : Task :=
  { id := 1, goal_id := 1, title := "T1", status := .pending,
    retry_count := 3, error := some "boom" }

/-- The expected row after one failure of the fresh task. -/
def taskT1Retried : Task :=
  { taskT1 with status := .pending, retry_count := 1, error := some "err1" }

/-- The expected row after a failure of the retry-exhausted task. -/
def taskMaxedFailed : Task :=
  { taskMaxed with status := .failed, error := some "err2",
                   completed_at := some storeMaxed.now }

/-- Concrete instantiation of C3: one failure of a fresh task (retry
branch), and one failure of a retry-exhausted task (terminal branch). -/
theorem claim_C3_witness :
    (getTask (failTask storeT1 1 "err1") 1 = some taskT1Retried ∧
      (failTask storeT1 1 "err1").audit_events = storeT1.audit_events ++
        [⟨"task.retry", "task", 1, "task.retry",
          "Task #" ++ toString 1 ++ " retry " ++
            toString (taskT1.retry_count + 1) ++ "/" ++
            toString taskT1.max_retries ++ ": " ++ "err1", storeT1.now⟩])
    ∧ (getTask (failTask storeMaxed 1 "err2") 1 = some taskMaxedFailed ∧
      (failTask storeMaxed 1 "err2").audit_events = storeMaxed.audit_events ++
        [⟨"task.failed", "task", 1, "task.failed",
          "Task #" ++ toString 1 ++ " failed: " ++ "err2", storeMaxed.now⟩]) :=
  ⟨(claim_C3 storeT1 1 "err1" taskT1 rfl).1 (by decide),
   (claim_C3 storeMaxed 1 "err2" taskMaxed rfl).2.1 (by decide)⟩

/-!
### C4: repeated failure and terminal failure
-/

/-- Iterated failures within the retry budget keep the task pending,
incrementing retry_count by exactly one per failure. -/
theorem getTask_iterFail_retry {s : Store} {id : Nat} {t : Task}
    (err : String) (ht : getTask s id = some t) :
    ∀ k, 1 ≤ k → t.retry_count + k ≤ t.max_retries →
      getTask (iterFail s id err k) id =
        some { t with status := .pending, retry_count := t.retry_count + k,
                      error := some err } := by
  intro k
  induction k with
  | zero => intro h1 _; exact absurd h1 (by omega)
  | succ k ih =>
    intro _ hle
    rcases Nat.eq_zero_or_pos k with rfl | hkpos
    · show getTask (failTask (iterFail s id err 0) id err) id = _
      exact getTask_failTask_retry err ht (by omega)
    · have hmid := ih (by omega) (by omega)
      show getTask (failTask (iterFail s id err k) id err) id = _
      exact getTask_failTask_retry err hmid
        (by show t.retry_count + k < t.max_retries; omega)

/-- Goal 1 with one fresh `requires_approval` task (id 1). -/
def c4Store : Store := (addTask storeG 1 "TA" { requiresApproval := some true }).snd

/-- `c4Store` after four failures: the task is terminally failed. -/
def c4Failed : Store := iterFail c4Store 1 "boom" 4

/-- `c4Failed` after `approveTask`: the failed task is queued again. -/
def c4Approved : Store := (approveTask c4Failed 1).snd

/-- C4 as stated is false on two counts.  First, after exactly
`max_retries` (= 3) invocations of `failTask` the fresh task of
`storeT1` is still pending (not failed): the terminal transition needs
`max_retries + 1` failures.  Second, a task driven to terminal failed
through the public operations can be returned by `getNextTask` again in
a reachable state: approving a `requires_approval` task re-queues it
regardless of its failed status. -/
theorem claim_C4_counterexample :
    (getTask (iterFail storeT1 1 "boom" 3) 1).map Task.status =
        some .pending ∧
    ((getTask (iterFail storeT1 1 "boom" 3) 1).map Task.status ≠
        some .failed) ∧
    (getTask c4Failed 1).map Task.status = some .failed ∧
    (getNextTask c4Approved).map Task.id = some 1 := by
  refine ⟨by decide, by decide, by decide, by decide⟩

/-- C4 amended: with retry_count starting at 0, each of the first
`max_retries` failures leaves the task pending with retry_count equal to
the number of failures so far; the `max_retries + 1`-st failure makes it
terminally failed with completed_at set; and a task whose status is
failed is never returned by `getNextTask` (approveTask can later
re-queue a requires_approval task, which makes it returnable again). -/
theorem claim_C4_amended :
    (∀ (s : Store) (id : Nat) (err : String) (t : Task),
        getTask s id = some t → t.retry_count = 0 →
        (∀ k, 1 ≤ k → k ≤ t.max_retries →
            ∃ u, getTask (iterFail s id err k) id = some u ∧
              u.status = .pending ∧ u.retry_count = k) ∧
        ∃ u, getTask (iterFail s id err (t.max_retries + 1)) id = some u ∧
          u.status = .failed ∧ u.completed_at.isSome = true)
    ∧ ∀ (s : Store) (u : Task), u.status = .failed →
        getNextTask s ≠ some u := by
  constructor
  · intro s id err t ht hrc
    constructor
    · intro k hk1 hk2
      have hstep := getTask_iterFail_retry err ht k hk1 (by omega)
      exact ⟨_, hstep, rfl, by show t.retry_count + k = k; omega⟩
    · rcases Nat.eq_zero_or_pos t.max_retries with hmr | hmr
      · rw [hmr]
        have hstep : getTask (failTask (iterFail s id err 0) id err) id =
            some { t with status := .failed, error := some err,
                          completed_at := some s.now } :=
          getTask_failTask_final err ht (by omega)
        exact ⟨_, hstep, rfl, rfl⟩
      · have hmid := getTask_iterFail_retry err ht t.max_retries (by omega) (by omega)
        have hstep := getTask_failTask_final err hmid
          (by show ¬ t.retry_count + t.max_retries < t.max_retries; omega)
        exact ⟨_, hstep, rfl, rfl⟩
  · intro s u hu hcontra
    obtain ⟨_, hcand, _⟩ := getNextTask_some hcontra
    rw [candidateB, hu] at hcand
    simp at hcand

/-- Concrete instantiation of the amended C4 at the fresh task of
`storeT1` (two failures of a budget of three) and at an arbitrary failed
task row. -/
theorem claim_C4_witness :
    (∃ u, getTask (iterFail storeT1 1 "boom" 2) 1 = some u ∧
        u.status = .pending ∧ u.retry_count = 2) ∧
    (∃ u, getTask (iterFail storeT1 1 "boom" 4) 1 = some u ∧
        u.status = .failed ∧ u.completed_at.isSome = true) ∧
    getNextTask storeT1 ≠ some { taskT1 with status := .failed } :=
  ⟨((claim_C4_amended.1 storeT1 1 "boom" taskT1 rfl rfl).1 2
      (by decide) (by decide)),
   (claim_C4_amended.1 storeT1 1 "boom" taskT1 rfl rfl).2,
   claim_C4_amended.2 storeT1 { taskT1 with status := .failed } rfl⟩

/-!
### C2: progress recomputation on task completion
-/

/-- Number of tasks owned by a goal, as `updateGoalProgress` counts them. -/
def taskCount (s : Store) (gid : Nat) : Nat := (listTasks s gid).length

/-- Number of completed tasks owned by a goal. -/
def completedCount (s : Store) (gid : Nat) : Nat :=
  ((listTasks s gid).filter (fun u => u.status == .completed)).length

theorem listTasks_congr {s1 s2 : Store} (h : s1.tasks = s2.tasks)
    (gid : Nat) : listTasks s1 gid = listTasks s2 gid := by
  unfold listTasks; rw [h]

/-- Lookup of the owning goal after `updateGoalStatus`. -/
theorem getGoal_updateGoalStatus {s : Store} {id : Nat} {g : Goal}
    (st : GoalStatus) (hg : getGoal s id = some g) :
    getGoal (updateGoalStatus s id st) id =
      some { g with status := st, updated_at := s.now } := by
  unfold updateGoalStatus
  show (updGoals s.goals id (fun x => { x with status := st, updated_at := s.now })).find? (fun x => x.id == id) = _
  rw [find?_updGoals s.goals id (fun x => { x with status := st, updated_at := s.now }) (fun x => rfl)]
  rw [show s.goals.find? (fun x => x.id == id) = some g from hg]
  rfl

/-- The progress value stored by `updateGoalProgress`. -/
def progressVal (s : Store) (gid : Nat) : Rat :=
  ((completedCount s gid : Rat) / (taskCount s gid : Rat))

/-- The threshold test of `updateGoalProgress` in terms of the counts:
with at least one task, progress reaches 1.0 exactly when every owned
task is completed. -/
theorem progress_ge_one_iff {s : Store} {gid : Nat}
    (hne : taskCount s gid ≠ 0) :
    (progressVal s gid ≥ 1) ↔ completedCount s gid = taskCount s gid := by
  have hcle : completedCount s gid ≤ taskCount s gid :=
    List.length_filter_le _ _
  have hnpos : (0 : Rat) < (taskCount s gid : Rat) := by
    exact_mod_cast Nat.pos_of_ne_zero hne
  unfold progressVal
  rw [ge_iff_le, one_le_div hnpos]
  constructor
  · intro h
    have h' : taskCount s gid ≤ completedCount s gid := by exact_mod_cast h
    omega
  · intro h
    rw [h]

/-- What `updateGoalProgress` does to the goal row when the goal owns at
least one task: progress is set to completed/total, and the status
becomes completed exactly when the two counts agree (the tasks table is
untouched). -/
theorem updateGoalProgress_spec {s : Store} {gid : Nat} {g : Goal}
    (hg : getGoal s gid = some g) (hne : taskCount s gid ≠ 0) :
    ∃ g', getGoal (updateGoalProgress s gid) gid = some g' ∧
      g'.progress = progressVal s gid ∧
      g'.status = (if completedCount s gid = taskCount s gid
        then GoalStatus.completed else g.status) ∧
      (updateGoalProgress s gid).tasks = s.tasks ∧
      (updateGoalProgress s gid).now = s.now := by
  have hif : ¬ ((listTasks s gid).length = 0) := hne
  by_cases hcn : completedCount s gid = taskCount s gid
  · have hp : progressVal s gid ≥ 1 := (progress_ge_one_iff hne).2 hcn
    have hp' : ((((listTasks s gid).filter (fun t => t.status == TaskStatus.completed)).length : Rat) / ((listTasks s gid).length : Rat)) ≥ 1 := hp
    have heq : updateGoalProgress s gid =
        updateGoalStatus { s with goals := updGoals s.goals gid (fun x => { x with progress := progressVal s gid, updated_at := s.now }) } gid .completed := by
      simp only [updateGoalProgress]
      rw [if_neg hif, if_pos hp']
      rfl
    have hg1 : getGoal ({ s with goals := updGoals s.goals gid (fun x => { x with progress := progressVal s gid, updated_at := s.now }) } : Store) gid = some { g with progress := progressVal s gid, updated_at := s.now } := by
      show (updGoals s.goals gid (fun x => { x with progress := progressVal s gid, updated_at := s.now })).find? (fun x => x.id == gid) = _
      rw [find?_updGoals s.goals gid (fun x => { x with progress := progressVal s gid, updated_at := s.now }) (fun x => rfl)]
      rw [show s.goals.find? (fun x => x.id == gid) = some g from hg]
      rfl
    rw [heq]
    refine ⟨_, getGoal_updateGoalStatus .completed hg1, rfl, ?_, rfl, rfl⟩
    rw [if_pos hcn]
  · have hp : ¬ (progressVal s gid ≥ 1) := fun h =>
      hcn ((progress_ge_one_iff hne).1 h)
    have hp' : ¬ (((((listTasks s gid).filter (fun t => t.status == TaskStatus.completed)).length : Rat) / ((listTasks s gid).length : Rat)) ≥ 1) := hp
    have heq : updateGoalProgress s gid =
        ({ s with goals := updGoals s.goals gid (fun x => { x with progress := progressVal s gid, updated_at := s.now }) } : Store) := by
      simp only [updateGoalProgress]
      rw [if_neg hif, if_neg hp']
      rfl
    rw [heq]
    have hg1 : getGoal ({ s with goals := updGoals s.goals gid (fun x => { x with progress := progressVal s gid, updated_at := s.now }) } : Store) gid = some { g with progress := progressVal s gid, updated_at := s.now } := by
      show (updGoals s.goals gid (fun x => { x with progress := progressVal s gid, updated_at := s.now })).find? (fun x => x.id == gid) = _
      rw [find?_updGoals s.goals gid (fun x => { x with progress := progressVal s gid, updated_at := s.now }) (fun x => rfl)]
      rw [show s.goals.find? (fun x => x.id == gid) = some g from hg]
      rfl
    refine ⟨_, hg1, rfl, ?_, rfl, rfl⟩
    rw [if_neg hcn]

/-- `completeTask` factors through `updateGoalProgress` on the owning
goal of the completed task, over the intermediate store that holds the
completed row and the task.completed audit row. -/
theorem completeTask_eq {s : Store} {id : Nat} {t : Task} (out : String)
    (ht : getTask s id = some t) :
    completeTask s id out =
      updateGoalProgress (logAudit { s with tasks := updTasks s.tasks id (completeRow s.now out) } "task.completed" "task" id ("Task #" ++ toString id ++ " completed")) t.goal_id := by
  have h2 : getTask (logAudit { s with tasks := updTasks s.tasks id (completeRow s.now out) } "task.completed" "task" id ("Task #" ++ toString id ++ " completed")) id = some (completeRow s.now out t) := by
    show (updTasks s.tasks id (completeRow s.now out)).find? (fun u => u.id == id) = _
    rw [find?_updTasks s.tasks id (completeRow s.now out) (fun u => rfl)]
    rw [show s.tasks.find? (fun u => u.id == id) = some t from ht]
    rfl
  simp only [completeTask]
  rw [h2]
  rfl

/-- C2.  After `completeTask` on an existing task of an existing goal,
the goal row shows progress equal to the number of its completed tasks
divided by its total number of tasks (both counted in the resulting
store), and its status has been set to completed exactly when those two
counts agree — otherwise the status is exactly what it was before. -/
theorem claim_C2 (s : Store) (id : Nat) (out : String) (t : Task) (g : Goal)
    (ht : getTask s id = some t) (hg : getGoal s t.goal_id = some g) :
    ∃ g', getGoal (completeTask s id out) t.goal_id = some g' ∧
      0 < taskCount (completeTask s id out) t.goal_id ∧
      g'.progress = ((completedCount (completeTask s id out) t.goal_id : Rat) /
        (taskCount (completeTask s id out) t.goal_id : Rat)) ∧
      g'.status = (if completedCount (completeTask s id out) t.goal_id =
          taskCount (completeTask s id out) t.goal_id
        then GoalStatus.completed else g.status) := by
  have heq := completeTask_eq out ht
  set s2 : Store := logAudit { s with tasks := updTasks s.tasks id (completeRow s.now out) } "task.completed" "task" id ("Task #" ++ toString id ++ " completed") with hs2
  have hg2 : getGoal s2 t.goal_id = some g := hg
  have htmem : t ∈ s.tasks := List.mem_of_find?_eq_some ht
  have htid : (t.id == id) = true := by
    have h : List.find? (fun u => u.id == id) s.tasks = some t := ht
    have h2 := List.find?_some h
    exact h2
  have hmem2 : completeRow s.now out t ∈ s2.tasks := by
    show completeRow s.now out t ∈ updTasks s.tasks id (completeRow s.now out)
    have h := List.mem_map_of_mem
      (fun u => if u.id == id then completeRow s.now out u else u) htmem
    simpa [updTasks, htid] using h
  have hmemf : completeRow s.now out t ∈
      (s2.tasks.filter (fun u => u.goal_id == t.goal_id)) := by
    rw [List.mem_filter]
    exact ⟨hmem2, by simp [completeRow]⟩
  have hpos : 0 < (s2.tasks.filter (fun u => u.goal_id == t.goal_id)).length :=
    List.length_pos_of_mem hmemf
  have hne : taskCount s2 t.goal_id ≠ 0 := by
    unfold taskCount listTasks
    rw [List.length_insertionSort]
    omega
  obtain ⟨g', hget, hprog, hstat, htasks, _⟩ := updateGoalProgress_spec hg2 hne
  have htaskseq : (completeTask s id out).tasks = s2.tasks := by
    rw [heq]; exact htasks
  have hlist : listTasks (completeTask s id out) t.goal_id = listTasks s2 t.goal_id :=
    listTasks_congr htaskseq t.goal_id
  have hcounts_t : taskCount (completeTask s id out) t.goal_id = taskCount s2 t.goal_id := by
    unfold taskCount; rw [hlist]
  have hcounts_c : completedCount (completeTask s id out) t.goal_id = completedCount s2 t.goal_id := by
    unfold completedCount; rw [hlist]
  refine ⟨g', by rw [heq]; exact hget, ?_, ?_, ?_⟩
  · rw [hcounts_t]; exact Nat.pos_of_ne_zero hne
  · rw [hcounts_t, hcounts_c]; exact hprog
  · rw [hcounts_t, hcounts_c]; exact hstat

/-- The goal row of `storeT12` as created by `addGoal`. -/
def goalG : Goal := { id := 1, title := "G" }

/-- Concrete instantiation of C2: completing task 1 of the two-task goal
gives progress 1/2 and leaves the active status unchanged. -/
theorem claim_C2_witness :
    ∃ g', getGoal (completeTask storeT12 1 "out") taskT1.goal_id = some g' ∧
      0 < taskCount (completeTask storeT12 1 "out") taskT1.goal_id ∧
      g'.progress = ((completedCount (completeTask storeT12 1 "out") taskT1.goal_id : Rat) /
        (taskCount (completeTask storeT12 1 "out") taskT1.goal_id : Rat)) ∧
      g'.status = (if completedCount (completeTask storeT12 1 "out") taskT1.goal_id =
          taskCount (completeTask storeT12 1 "out") taskT1.goal_id
        then GoalStatus.completed else goalG.status) :=
  claim_C2 storeT12 1 "out" taskT1 goalG rfl rfl

/-!
### C10: approveTask
-/

/-- A conditional row map with no matching row is the identity. -/
theorem map_ite_id {α : Type} (p : α → Bool) (f : α → α) :
    ∀ l : List α, (∀ x ∈ l, p x = false) →
      l.map (fun x => if p x then f x else x) = l := by
  intro l h
  induction l with
  | nil => rfl
  | cons a l ih =>
    have ha := h a (List.mem_cons_self a l)
    have ht := ih (fun x hx => h x (List.mem_cons.2 (Or.inr hx)))
    simp only [List.map, ha, ht]
    simp

/-- Lookup by id over the conditional UPDATE of `approveTask`. -/
theorem find?_map_cond (l : List Task) (id : Nat) (f : Task → Task)
    (hf : ∀ x : Task, (f x).id = x.id) (cond : Task → Bool) :
    (l.map (fun x => if x.id == id && cond x then f x else x)).find?
        (fun x => x.id == id) =
      (l.find? (fun x => x.id == id)).map
        (fun x => if cond x then f x else x) := by
  induction l with
  | nil => rfl
  | cons a l ih =>
    simp only [List.map]
    by_cases ha : a.id = id
    · have hpa : (a.id == id) = true := beq_iff_eq.2 ha
      by_cases hca : cond a = true
      · have himg : (if a.id == id && cond a then f a else a) = f a := by
          rw [hpa, hca]; rfl
        have hfid : ((f a).id == id) = true := by rw [hf]; exact hpa
        rw [himg]
        simp only [List.find?_cons, hfid, hpa]
        simp [hca]
      · have hca' : cond a = false := by simpa using hca
        have himg : (if a.id == id && cond a then f a else a) = a := by
          rw [hpa, hca']; rfl
        rw [himg]
        simp only [List.find?_cons, hpa]
        simp [hca']
    · have hpa : (a.id == id) = false := by simpa using ha
      have himg : (if a.id == id && cond a then f a else a) = a := by
        rw [hpa]; rfl
      rw [himg]
      simp only [List.find?_cons, hpa]
      exact ih

/-- The row UPDATE applied by `approveTask`. -/
def approveRow (now : Nat) (t : Task) : Task :=
  { t with approved_at := some now, status := .queued }

/-- C10.  `approveTask` succeeds exactly when a stored row has the given
id and requires_approval, with no condition whatsoever on the current
status; on success the row is re-queued with approved_at set and nothing
else of it changed; on failure the store is untouched. -/
theorem claim_C10 (s : Store) (id : Nat) :
    ((approveTask s id).fst = true ↔
      ∃ t ∈ s.tasks, t.id = id ∧ t.requires_approval = true)
    ∧ (∀ t : Task, getTask s id = some t → t.requires_approval = true →
        getTask (approveTask s id).snd id =
          some { t with status := .queued, approved_at := some s.now })
    ∧ ((approveTask s id).fst = false → (approveTask s id).snd = s) := by
  have htasks : (approveTask s id).snd.tasks =
      s.tasks.map (fun x => if x.id == id && x.requires_approval then { x with approved_at := some s.now, status := .queued } else x) := by
    unfold approveTask
    by_cases hch : (s.tasks.filter (fun t => t.id == id && t.requires_approval)).length > 0
    · rw [if_pos hch]; rfl
    · rw [if_neg hch]
  refine ⟨?_, ?_, ?_⟩
  · constructor
    · intro _
      by_cases hch : (s.tasks.filter (fun t => t.id == id && t.requires_approval)).length > 0
      · obtain ⟨a, hamem⟩ := List.exists_mem_of_length_pos hch
        rw [List.mem_filter] at hamem
        refine ⟨a, hamem.1, ?_, ?_⟩
        · exact beq_iff_eq.1 (Bool.and_elim_left hamem.2)
        · exact Bool.and_elim_right hamem.2
      · exfalso
        rename_i hfst
        unfold approveTask at hfst
        rw [if_neg hch] at hfst
        simp at hfst
    · intro ⟨t, htmem, htid, htra⟩
      have hmemf : t ∈ s.tasks.filter (fun u => u.id == id && u.requires_approval) := by
        rw [List.mem_filter]
        exact ⟨htmem, by rw [htid, htra]; simp⟩
      have hch : (s.tasks.filter (fun u => u.id == id && u.requires_approval)).length > 0 :=
        List.length_pos_of_mem hmemf
      unfold approveTask
      rw [if_pos hch]
  · intro t ht htra
    have h1 : getTask (approveTask s id).snd id =
        (s.tasks.map (fun x => if x.id == id && x.requires_approval then { x with approved_at := some s.now, status := .queued } else x)).find? (fun x => x.id == id) := by
      unfold getTask
      rw [htasks]
    rw [h1, find?_map_cond s.tasks id (fun x => { x with approved_at := some s.now, status := .queued }) (fun x => rfl) (fun x => x.requires_approval)]
    rw [show s.tasks.find? (fun u => u.id == id) = some t from ht]
    simp only [Option.map, htra]
    rfl
  · intro hfst
    have hch : ¬ ((s.tasks.filter (fun t => t.id == id && t.requires_approval)).length > 0) := by
      intro hch
      unfold approveTask at hfst
      rw [if_pos hch] at hfst
      simp at hfst
    have hnil : ∀ x ∈ s.tasks, (x.id == id && x.requires_approval) = false := by
      intro x hx
      by_cases hpx : (x.id == id && x.requires_approval) = true
      · exfalso
        exact hch (List.length_pos_of_mem (List.mem_filter.2 ⟨hx, hpx⟩))
      · simpa using hpx
    have hmap := map_ite_id (fun x => x.id == id && x.requires_approval)
      (fun x => { x with approved_at := some s.now, status := .queued }) s.tasks hnil
    unfold approveTask
    rw [if_neg hch]
    show ({ s with tasks := s.tasks.map (fun x => if x.id == id && x.requires_approval then { x with approved_at := some s.now, status := .queued } else x) } : Store) = s
    rw [hmap]

/-- Goal 1 with a completed `requires_approval` task: built through
`addTask` then `completeTask`, so the task is terminal when approved. -/
def c10Store : Store :=
  completeTask (addTask storeG 1 "T" { requiresApproval := some true }).snd 1 "done"

/-- The completed task row of `c10Store`. -/
def taskC10 : Task :=
  { id := 1, goal_id := 1, title := "T", status := .completed,
    output := some "done", completed_at := some 0, requires_approval := true }

unseal Rat.mul Rat.inv Nat.gcd in
/-- Concrete instantiation of C10 at a task that is already completed:
the approval succeeds and re-queues the terminal task. -/
theorem claim_C10_witness :
    ((approveTask c10Store 1).fst = true ↔
      ∃ t ∈ c10Store.tasks, t.id = 1 ∧ t.requires_approval = true)
    ∧ getTask (approveTask c10Store 1).snd 1 =
        some { taskC10 with status := .queued, approved_at := some c10Store.now } :=
  ⟨(claim_C10 c10Store 1).1, (claim_C10 c10Store 1).2.1 taskC10 rfl rfl⟩

/-!
### C5: batch draining (processQueue)
-/

/-- The execution oracle of the two-task scenarios: executing task 1
fails, executing anything else succeeds. -/
def oracleC5 : Oracle := fun t =>
  if t.id = 1 then ⟨false, "boom"⟩ else ⟨true, "ok"⟩

/-- C5 as stated is false at its own scenario: with two fresh eligible
tasks (default max_retries 3) where executing the first always fails and
the second succeeds, `processQueue 5` does not report
processed 2 / completed 1 / failed 1 — the failing task is reset to
pending by every `failTask` and re-selected first (lowest id), so the
batch reports processed 5, completed 1, failed 4. -/
theorem claim_C5_counterexample :
    (processQueue oracleC5 5 storeT12).fst.processed = 5 ∧
    (processQueue oracleC5 5 storeT12).fst.completed = 1 ∧
    (processQueue oracleC5 5 storeT12).fst.failed = 4 :=
  ⟨by decide, by decide, by decide⟩

/-- `storeT12` with the retry budget of task 1 already exhausted
(three prior failures). -/
def storeC5am : Store := iterFail storeT12 1 "boom" 3

unseal Rat.mul Rat.inv Nat.gcd in
/-- C5 amended: `processQueue` processes at most `maxTasks` tasks, every
processed task is counted as completed or failed (the loop does not stop
on an individual failure), and if it stops below `maxTasks` then no
eligible task remains; and in the two-task scenario where the first
task's execution fails with no retries remaining and the second
succeeds, `processQueue 5` reports processed 2, completed 1, failed 1. -/
theorem claim_C5_amended :
    (∀ (oracle : Oracle) (n : Nat) (s : Store),
        (processQueue oracle n s).fst.processed ≤ n ∧
        (processQueue oracle n s).fst.processed =
          (processQueue oracle n s).fst.completed +
            (processQueue oracle n s).fst.failed ∧
        ((processQueue oracle n s).fst.processed < n →
          getNextTask (processQueue oracle n s).snd = none))
    ∧ (processQueue oracleC5 5 storeC5am).fst.processed = 2
    ∧ (processQueue oracleC5 5 storeC5am).fst.completed = 1
    ∧ (processQueue oracleC5 5 storeC5am).fst.failed = 1 := by
  refine ⟨fun oracle n => ?_, by decide, by decide, by decide⟩
  induction n with
  | zero =>
    intro s
    refine ⟨Nat.le_refl 0, rfl, fun h => absurd h (by omega)⟩
  | succ n ih =>
    intro s
    cases h : getNextTask s with
    | none =>
      refine ⟨?_, ?_, fun _ => ?_⟩
      · simp [processQueue, h]
      · simp [processQueue, h]
      · simp [processQueue, h]
    | some t =>
      obtain ⟨iht1, iht2, iht3⟩ := ih (execute oracle s t).snd
      simp only [processQueue, h]
      refine ⟨by omega, ?_, fun hlt => iht3 (by omega)⟩
      cases hs : (execute oracle s t).fst.success <;> simp [hs] <;> omega

unseal Rat.mul Rat.inv Nat.gcd in
/-- Concrete instantiation of the amended C5: the scenario run stops
after two tasks because the queue is empty. -/
theorem claim_C5_witness :
    getNextTask (processQueue oracleC5 5 storeC5am).snd = none :=
  (claim_C5_amended.1 oracleC5 5 storeC5am).2.2 (by decide)

/-!
### C6: daemon queue draining (processGoalQueue)
-/

/-- The daemon execution collaborator of the fail-stop scenario:
executing task 1 throws, everything else returns a result. -/
def exC6 : Task → Except String String := fun t =>
  if t.id = 1 then .error "boom" else .ok "done"

/-- C6.  One `processGoalQueue` invocation is a no-op when no task is
eligible; otherwise it marks the selected task running and executes it;
on failure it records the failure via `failTask` and returns without
touching another task; on success it recurses to keep draining.  In the
two-task scenario where the first task fails, one invocation processes
only task 1 (back to pending with one retry) and leaves task 2 pending
and never started. -/
theorem claim_C6 :
    (∀ (exec : Task → Except String String) (n : Nat) (s : Store)
        (st : DaemonStats), getNextTask s = none →
        processGoalQueue exec (n + 1) s st = (s, st))
    ∧ (∀ (exec : Task → Except String String) (n : Nat) (s : Store)
        (st : DaemonStats) (t : Task) (e : String),
        getNextTask s = some t → exec t = .error e →
        processGoalQueue exec (n + 1) s st =
          (failTask (startTask s t.id) t.id e,
           ⟨st.tasksProcessed + 1, st.tasksCompleted, st.tasksFailed + 1,
            st.triggersFireCount, st.heartbeats⟩))
    ∧ (∀ (exec : Task → Except String String) (n : Nat) (s : Store)
        (st : DaemonStats) (t : Task) (out : String),
        getNextTask s = some t → exec t = .ok out →
        processGoalQueue exec (n + 1) s st =
          processGoalQueue exec n (completeTask (startTask s t.id) t.id out)
            ⟨st.tasksProcessed + 1, st.tasksCompleted + 1, st.tasksFailed,
             st.triggersFireCount, st.heartbeats⟩)
    ∧ ((getTask (processGoalQueue exC6 10 storeT12 {}).fst 1).map Task.status =
        some .pending
      ∧ (getTask (processGoalQueue exC6 10 storeT12 {}).fst 1).map Task.retry_count =
        some 1
      ∧ (getTask (processGoalQueue exC6 10 storeT12 {}).fst 2).map Task.status =
        some .pending
      ∧ (getTask (processGoalQueue exC6 10 storeT12 {}).fst 2).map Task.started_at =
        some none
      ∧ (processGoalQueue exC6 10 storeT12 {}).snd.tasksProcessed = 1) := by
  refine ⟨?_, ?_, ?_, by decide, by decide, by decide, by decide, by decide⟩
  · intro exec n s st h
    simp only [processGoalQueue, h]
  · intro exec n s st t e h he
    simp only [processGoalQueue, h, he]
  · intro exec n s st t out h he
    simp only [processGoalQueue, h, he]

/-- Concrete instantiation of the fail-stop equation of C6 at the
two-task scenario. -/
theorem claim_C6_witness :
    processGoalQueue exC6 10 storeT12 {} =
      (failTask (startTask storeT12 1) 1 "boom", ⟨1, 0, 1, 0, 0⟩) :=
  claim_C6.2.1 exC6 9 storeT12 {} taskT1 "boom" rfl rfl

/-!
### C7: dependency index resolution in decomposeAndCreate
-/

theorem addTask_fst_id (s : Store) (gid : Nat) (title : String)
    (o : AddTaskOptions) : (addTask s gid title o).fst.id = s.next_task_id := rfl

theorem addTask_snd_next (s : Store) (gid : Nat) (title : String)
    (o : AddTaskOptions) :
    (addTask s gid title o).snd.next_task_id = s.next_task_id + 1 := rfl

/-- Invariant of the insertion loop: starting at position `i0` with the
map holding exactly the earlier positions, every created task gets the
next sequential id and its depends_on resolves exactly the strictly
earlier positions of its dependsOnIndex to their assigned ids. -/
theorem createLoop_spec (goalId : Nat) :
    ∀ (tds : List DecomposedTask) (i0 base : Nat) (m : List (Nat × Nat))
      (s : Store),
      s.next_task_id = base + i0 →
      (∀ j : Nat, m.lookup j = if j < i0 then some (base + j) else none) →
      (createLoop goalId tds i0 m s).fst.length = tds.length ∧
      ∀ i td, tds[i]? = some td →
        ∃ u, (createLoop goalId tds i0 m s).fst[i]? = some u ∧
          u.id = base + i0 + i ∧ u.goal_id = goalId ∧
          u.depends_on = td.dependsOnIndex.filterMap
            (fun j => if j < i0 + i then some (base + j) else none) := by
  intro tds
  induction tds with
  | nil =>
    intro i0 base m s _ _
    exact ⟨rfl, fun i td hi => by simp at hi⟩
  | cons td rest ih =>
    intro i0 base m s hbase hm
    have hm' : ∀ j : Nat,
        ((i0, base + i0) :: m).lookup j =
          if j < i0 + 1 then some (base + j) else none := by
      intro j
      rw [List.lookup_cons]
      by_cases hj : j = i0
      · subst hj
        simp
      · have hbeq : (j == i0) = false := by simpa using hj
        rw [hbeq]
        show m.lookup j = _
        rw [hm j]
        by_cases hjlt : j < i0
        · rw [if_pos hjlt, if_pos (by omega)]
        · rw [if_neg hjlt, if_neg (by omega)]
    simp only [createLoop]
    rw [addTask_fst_id, hbase]
    have hnext : (addTask s goalId td.title { description := some td.description, skill := td.skill, input := some td.input, dependsOn := some (td.dependsOnIndex.filterMap (fun depIdx => m.lookup depIdx)), requiresApproval := some td.requiresApproval, scheduledAt := none }).snd.next_task_id = base + (i0 + 1) := by
      rw [addTask_snd_next, hbase]
      omega
    obtain ⟨ihlen, ihspec⟩ := ih (i0 + 1) base ((i0, base + i0) :: m)
      (addTask s goalId td.title { description := some td.description, skill := td.skill, input := some td.input, dependsOn := some (td.dependsOnIndex.filterMap (fun depIdx => m.lookup depIdx)), requiresApproval := some td.requiresApproval, scheduledAt := none }).snd
      hnext hm'
    constructor
    · simp only [List.length_cons, ihlen]
    · intro i td' hi
      cases i with
      | zero =>
        obtain rfl : td = td' := by simpa using hi
        refine ⟨(addTask s goalId td.title { description := some td.description, skill := td.skill, input := some td.input, dependsOn := some (td.dependsOnIndex.filterMap (fun depIdx => m.lookup depIdx)), requiresApproval := some td.requiresApproval, scheduledAt := none }).fst, by simp, ?_, rfl, ?_⟩
        · rw [addTask_fst_id, hbase]
          omega
        · show td.dependsOnIndex.filterMap (fun depIdx => m.lookup depIdx) = _
          refine List.filterMap_congr (fun x _ => ?_)
          rw [hm x]
          rfl
      | succ i =>
        have hi' : rest[i]? = some td' := by simpa using hi
        obtain ⟨u, hu1, hu2, hu3, hu4⟩ := ihspec i td' hi'
        refine ⟨u, ?_, by omega, hu3, ?_⟩
        · simpa using hu1
        · have hb : i0 + 1 + i = i0 + (i + 1) := by omega
          rw [hb] at hu4
          exact hu4

/-- C7.  `decomposeAndCreate` inserts the decomposed tasks in array
order with sequential store-assigned ids, and each created task's
depends_on holds exactly the assigned ids of the strictly earlier array
positions named by its dependsOnIndex — indices naming the task's own or
a later position resolve to nothing and are dropped. -/
theorem claim_C7 (s : Store) (goalId : Nat) (result : DecompositionResult) :
    (decomposeAndCreate s goalId result).fst.length = result.tasks.length ∧
    ∀ i td, result.tasks[i]? = some td →
      ∃ u, (decomposeAndCreate s goalId result).fst[i]? = some u ∧
        u.id = s.next_task_id + i ∧ u.goal_id = goalId ∧
        u.depends_on = td.dependsOnIndex.filterMap
          (fun j => if j < i then some (s.next_task_id + j) else none) := by
  obtain ⟨h1, h2⟩ := createLoop_spec goalId result.tasks 0 s.next_task_id [] s
    (by omega) (fun j => by simp)
  refine ⟨h1, fun i td hi => ?_⟩
  obtain ⟨u, hu1, hu2, hu3, hu4⟩ := h2 i td hi
  refine ⟨u, hu1, by omega, hu3, ?_⟩
  have hb : (0 : Nat) + i = i := by omega
  rw [hb] at hu4
  exact hu4

/-- First decomposed task of the round-trip scenario. -/
def tdA : DecomposedTask := { title := "A", description := "" }

/-- Second decomposed task: depends on array position 0. -/
def tdB : DecomposedTask := { title := "B", description := "", dependsOnIndex := [0] }

/-- The decomposition `[A, B(dependsOnIndex=[0])]`. -/
def decC7 : DecompositionResult :=
  { tasks := [tdA, tdB], reasoning := "r", estimatedMinutes := 10 }

/-- Concrete instantiation of C7 at `[A, B(dependsOnIndex=[0])]`: two
tasks are created and the second depends on the assigned id (1) of the
first, not on the literal index 0. -/
theorem claim_C7_witness :
    (decomposeAndCreate storeG 1 decC7).fst.length = decC7.tasks.length ∧
    (∃ u, (decomposeAndCreate storeG 1 decC7).fst[1]? = some u ∧
      u.id = storeG.next_task_id + 1 ∧ u.goal_id = 1 ∧
      u.depends_on = tdB.dependsOnIndex.filterMap
        (fun j => if j < 1 then some (storeG.next_task_id + j) else none)) ∧
    (decomposeAndCreate storeG 1 decC7).fst.map Task.depends_on = [[], [1]] :=
  ⟨(claim_C7 storeG 1 decC7).1, (claim_C7 storeG 1 decC7).2 1 tdB rfl, by decide⟩

/-!
### C8: degradation on an unparseable decomposition response
-/

/-- The two parse-failure conditions of `parseResponse`: JSON.parse
threw, or the parsed value has no tasks array. -/
def parseFailureB : Except String Json → Bool
  | .error _ => true
  | .ok j =>
    match tasksArray j with
    | none => true
    | some _ => false

/-- C8.  When the response cannot be parsed into a decomposition (parse
error, or missing/non-array tasks field), `parseResponse` degrades —
without raising — to a single manual task, and `decomposeAndCreate`
then creates exactly one task, with requires_approval set and the
length-capped raw response embedded in its description. -/
theorem claim_C8 (parsed : Except String Json) (content : String)
    (s : Store) (goalId : Nat) (hfail : parseFailureB parsed = true) :
    ∃ u, (decomposeAndCreate s goalId (parseResponse parsed content)).fst = [u] ∧
      u.requires_approval = true ∧
      u.description =
        some ("LLM decomposition failed. Original response: " ++ content.take 200) ∧
      u.title = "Execute goal manually" := by
  cases parsed with
  | error e =>
    exact ⟨_, rfl, rfl, rfl, rfl⟩
  | ok j =>
    cases htj : tasksArray j with
    | some xs =>
      exfalso
      simp only [parseFailureB, htj] at hfail
      exact Bool.false_ne_true hfail
    | none =>
      have hresp : parseResponse (.ok j) content =
          fallbackResult content "Response missing tasks array" := by
        simp only [parseResponse, htj]
      rw [hresp]
      exact ⟨_, rfl, rfl, rfl, rfl⟩

/-- Concrete instantiation of C8 at a raw non-JSON response. -/
theorem claim_C8_witness :
    ∃ u, (decomposeAndCreate storeG 1
        (parseResponse (.error "Unexpected token") "not json at all")).fst = [u] ∧
      u.requires_approval = true ∧
      u.description =
        some ("LLM decomposition failed. Original response: " ++
          ("not json at all").take 200) ∧
      u.title = "Execute goal manually" :=
  claim_C8 (.error "Unexpected token") "not json at all" storeG 1 rfl

/-!
### C9: audit rows on state-changing operations
-/

/-- The mutating operations of the `GoalStore` API. -/
inductive StoreOp where
  | addGoalOp (title : String) (options : AddGoalOptions)
  | updateGoalStatusOp (id : Nat) (status : GoalStatus)
  | updateGoalProgressOp (id : Nat)
  | removeGoalOp (id : Nat)
  | addTaskOp (goalId : Nat) (title : String) (options : AddTaskOptions)
  | startTaskOp (id : Nat)
  | completeTaskOp (id : Nat) (output : String)
  | failTaskOp (id : Nat) (error : String)
  | approveTaskOp (id : Nat)

/-- Apply a mutating operation, dropping its return value. -/
def applyOp : StoreOp → Store → Store
  | .addGoalOp title opts, s => (addGoal s title opts).snd
  | .updateGoalStatusOp id st, s => updateGoalStatus s id st
  | .updateGoalProgressOp id, s => updateGoalProgress s id
  | .removeGoalOp id, s => (removeGoal s id).snd
  | .addTaskOp gid title opts, s => (addTask s gid title opts).snd
  | .startTaskOp id, s => startTask s id
  | .completeTaskOp id out, s => completeTask s id out
  | .failTaskOp id err, s => failTask s id err
  | .approveTaskOp id, s => (approveTask s id).snd

/-- The operations that actually write an audit row in the source:
everything except `removeGoal`, except an `updateGoalProgress` that does
not reach 1.0 (or has no tasks), except a `failTask` on a missing task
(a no-op), and except an `approveTask` that matches no row (also a
no-op). -/
def auditedOp : StoreOp → Store → Prop
  | .removeGoalOp _, _ => False
  | .updateGoalProgressOp id, s =>
      taskCount s id ≠ 0 ∧ completedCount s id = taskCount s id
  | .failTaskOp id _, s => (getTask s id).isSome = true
  | .approveTaskOp id, s =>
      (s.tasks.filter (fun t => t.id == id && t.requires_approval)).length > 0
  | _, _ => True

/-- The audit trail of `updateGoalProgress`: either untouched, or
extended by the goal.completed row; the latter happens exactly when the
goal owns tasks and they are all completed. -/
theorem updateGoalProgress_audit (s : Store) (id : Nat) :
    ((updateGoalProgress s id).audit_events = s.audit_events ∧
      ¬ (taskCount s id ≠ 0 ∧ completedCount s id = taskCount s id)) ∨
    ∃ ev, (updateGoalProgress s id).audit_events = s.audit_events ++ [ev] ∧
      (taskCount s id ≠ 0 ∧ completedCount s id = taskCount s id) := by
  by_cases h0 : taskCount s id ≠ 0
  · by_cases hcn : completedCount s id = taskCount s id
    · right
      have hp' : ((((listTasks s id).filter (fun t => t.status == TaskStatus.completed)).length : Rat) / ((listTasks s id).length : Rat)) ≥ 1 :=
        (progress_ge_one_iff h0).2 hcn
      have heq : updateGoalProgress s id =
          updateGoalStatus { s with goals := updGoals s.goals id (fun x => { x with progress := progressVal s id, updated_at := s.now }) } id .completed := by
        simp only [updateGoalProgress]
        rw [if_neg (show ¬ ((listTasks s id).length = 0) from h0), if_pos hp']
        rfl
      rw [heq]
      exact ⟨_, rfl, h0, hcn⟩
    · left
      have hp' : ¬ (((((listTasks s id).filter (fun t => t.status == TaskStatus.completed)).length : Rat) / ((listTasks s id).length : Rat)) ≥ 1) :=
        fun h => hcn ((progress_ge_one_iff h0).1 h)
      have heq : updateGoalProgress s id =
          ({ s with goals := updGoals s.goals id (fun x => { x with progress := progressVal s id, updated_at := s.now }) } : Store) := by
        simp only [updateGoalProgress]
        rw [if_neg (show ¬ ((listTasks s id).length = 0) from h0), if_neg hp']
        rfl
      rw [heq]
      exact ⟨rfl, fun hc => hcn hc.2⟩
  · left
    have h0' : (listTasks s id).length = 0 := by
      by_contra hc
      exact h0 hc
    have heq : updateGoalProgress s id = s := by
      simp only [updateGoalProgress]
      rw [if_pos h0']
    rw [heq]
    exact ⟨rfl, fun hc => h0 hc.1⟩

/-- The audit trail of `completeTask`: the task.completed row is always
appended, plus possibly the goal.completed row. -/
theorem completeTask_audit (s : Store) (id : Nat) (out : String) :
    ∃ l, (completeTask s id out).audit_events = s.audit_events ++ l ∧ l ≠ [] := by
  simp only [completeTask]
  cases h : getTask (logAudit { s with tasks := updTasks s.tasks id (completeRow s.now out) } "task.completed" "task" id ("Task #" ++ toString id ++ " completed")) id with
  | none =>
    exact ⟨[⟨"task.completed", "task", id, "task.completed", "Task #" ++ toString id ++ " completed", s.now⟩], rfl, by simp⟩
  | some t =>
    rcases updateGoalProgress_audit (logAudit { s with tasks := updTasks s.tasks id (completeRow s.now out) } "task.completed" "task" id ("Task #" ++ toString id ++ " completed")) t.goal_id with ⟨heq, _⟩ | ⟨ev, heq, _⟩
    · refine ⟨[⟨"task.completed", "task", id, "task.completed", "Task #" ++ toString id ++ " completed", s.now⟩], ?_, by simp⟩
      rw [heq]
      rfl
    · refine ⟨[⟨"task.completed", "task", id, "task.completed", "Task #" ++ toString id ++ " completed", s.now⟩, ev], ?_, by simp⟩
      rw [heq, logAudit_audit_events]
      simp

/-- The audit trail of `failTask`: untouched only when the task does not
exist; otherwise an audit row is appended. -/
theorem failTask_audit (s : Store) (id : Nat) (err : String) :
    ∃ l, (failTask s id err).audit_events = s.audit_events ++ l ∧
      ((getTask s id).isSome = true → l ≠ []) := by
  cases ht : getTask s id with
  | none =>
    refine ⟨[], ?_, by simp⟩
    unfold failTask
    rw [ht]
    simp
  | some t =>
    by_cases h : t.retry_count < t.max_retries
    · refine ⟨[⟨"task.retry", "task", id, "task.retry", "Task #" ++ toString id ++ " retry " ++ toString (t.retry_count + 1) ++ "/" ++ toString t.max_retries ++ ": " ++ err, s.now⟩], ?_, by simp⟩
      unfold failTask
      rw [ht]
      simp only [if_pos h]
      rfl
    · refine ⟨[⟨"task.failed", "task", id, "task.failed", "Task #" ++ toString id ++ " failed: " ++ err, s.now⟩], ?_, by simp⟩
      unfold failTask
      rw [ht]
      simp only [if_neg h]
      rfl

/-- The audit trail of `approveTask`: appended exactly when a row
matched. -/
theorem approveTask_audit (s : Store) (id : Nat) :
    ∃ l, (approveTask s id).snd.audit_events = s.audit_events ++ l ∧
      ((s.tasks.filter (fun t => t.id == id && t.requires_approval)).length > 0 →
        l ≠ []) := by
  by_cases hch : (s.tasks.filter (fun t => t.id == id && t.requires_approval)).length > 0
  · refine ⟨[⟨"task.approved", "task", id, "task.approved", "Task #" ++ toString id ++ " approved", s.now⟩], ?_, by simp⟩
    unfold approveTask
    rw [if_pos hch]
    rfl
  · refine ⟨[], ?_, fun hc => absurd hc hch⟩
    unfold approveTask
    rw [if_neg hch]
    simp

/-- C9 is false as stated: `removeGoal` deletes the goal row (and its
tasks) without appending any audit row.  Shown at a store holding one
goal with two tasks. -/
theorem claim_C9_counterexample :
    (removeGoal storeT12 1).fst = true ∧
    storeT12.goals.length = 1 ∧ (removeGoal storeT12 1).snd.goals.length = 0 ∧
    storeT12.tasks.length = 2 ∧ (removeGoal storeT12 1).snd.tasks.length = 0 ∧
    (removeGoal storeT12 1).snd.audit_events = storeT12.audit_events :=
  ⟨rfl, rfl, rfl, rfl, rfl, rfl⟩

/-- C9 amended: every Store operation only ever appends to the audit
trail (no audit row is rewritten or deleted), and every state-changing
operation appends at least one audit row, with these exceptions:
`removeGoal` never audits, `updateGoalProgress` audits only when the
recomputed progress reaches 1.0, and the no-op invocations of `failTask`
(missing task) and `approveTask` (no matching row) change nothing and
write nothing. -/
theorem claim_C9_amended :
    (∀ (op : StoreOp) (s : Store), ∃ new : List AuditEvent,
        (applyOp op s).audit_events = s.audit_events ++ new)
    ∧ ∀ (op : StoreOp) (s : Store), auditedOp op s →
        s.audit_events.length < (applyOp op s).audit_events.length := by
  have key : ∀ (op : StoreOp) (s : Store), ∃ new : List AuditEvent,
      (applyOp op s).audit_events = s.audit_events ++ new ∧
      (auditedOp op s → new ≠ []) := by
    intro op s
    cases op with
    | addGoalOp title opts =>
      exact ⟨[⟨"goal.created", "goal", s.next_goal_id, "goal.created", title, s.now⟩], rfl, fun _ => by simp⟩
    | updateGoalStatusOp id st =>
      exact ⟨[⟨"goal." ++ st.name, "goal", id, "goal." ++ st.name, "Goal #" ++ toString id ++ " → " ++ st.name, s.now⟩], rfl, fun _ => by simp⟩
    | updateGoalProgressOp id =>
      rcases updateGoalProgress_audit s id with ⟨heq, hno⟩ | ⟨ev, heq, _⟩
      · refine ⟨[], ?_, fun hc => absurd hc hno⟩
        show (updateGoalProgress s id).audit_events = s.audit_events ++ []
        rw [heq]
        simp
      · exact ⟨[ev], heq, fun _ => by simp⟩
    | removeGoalOp id =>
      exact ⟨[], by simp [applyOp, removeGoal], fun hc => absurd hc (by simp [auditedOp])⟩
    | addTaskOp gid title opts =>
      exact ⟨[⟨"task.created", "task", s.next_task_id, "task.created", title, s.now⟩], rfl, fun _ => by simp⟩
    | startTaskOp id =>
      exact ⟨[⟨"task.started", "task", id, "task.started", "Task #" ++ toString id ++ " started", s.now⟩], rfl, fun _ => by simp⟩
    | completeTaskOp id out =>
      obtain ⟨l, hl, hne⟩ := completeTask_audit s id out
      exact ⟨l, hl, fun _ => hne⟩
    | failTaskOp id err =>
      obtain ⟨l, hl, hne⟩ := failTask_audit s id err
      exact ⟨l, hl, hne⟩
    | approveTaskOp id =>
      obtain ⟨l, hl, hne⟩ := approveTask_audit s id
      exact ⟨l, hl, hne⟩
  refine ⟨fun op s => ⟨(key op s).choose, (key op s).choose_spec.1⟩, ?_⟩
  intro op s haud
  obtain ⟨new, hnew, hne⟩ := key op s
  rw [hnew, List.length_append]
  have : new.length ≠ 0 := fun h => (hne haud) (List.eq_nil_of_length_eq_zero h)
  omega

/-- Concrete instantiation of the amended C9: the append-only fact at a
`removeGoal`, and the audit-growth fact at an `addGoal`. -/
theorem claim_C9_witness :
    (∃ new : List AuditEvent,
      (applyOp (StoreOp.removeGoalOp 1) storeT12).audit_events =
        storeT12.audit_events ++ new)
    ∧ baseStore.audit_events.length <
        (applyOp (StoreOp.addGoalOp "G" {}) baseStore).audit_events.length :=
  ⟨claim_C9_amended.1 (StoreOp.removeGoalOp 1) storeT12,
   claim_C9_amended.2 (StoreOp.addGoalOp "G" {}) baseStore trivial⟩

end OperatorCore
